import Mathlib

/-
Verification development for the WebSocket connection-manager layer
(src/internal/observable/dom/WebSocketSubject.ts).

The TypeScript class `WebSocketSubject` is embedded as an explicit state
machine.  Mutable fields of the object become fields of `WS.WSState`;
the transport callbacks (`onopen`, `onmessage`, `onerror`, `onclose`),
the caller-facing operations (`next`, `error`, `complete`, subscribe,
unsubscribe) and the multiplex layer become Lean functions from states
to states paired with a trace of observable effects (socket sends,
socket close calls, consumer deliveries, lifecycle-hook invocations).

JavaScript object identity is replaced by arena indices: `subjects`
is the arena of all `Subject` instances ever used as `_output` (socket
callbacks capture the index that was current when the socket was
created, exactly as the closures in `_connectSocket` capture the local
`observer = this._output`), and `socks` is the arena of all transport
sockets ever constructed (stale sockets keep firing events after the
manager dropped them, exactly as in the source).

Values of the element type `T` and wire messages are both modelled as
`Nat`; the pluggable serializer / deserializer are functions
`Nat → Except Nat Nat`, where `.error n` models a thrown exception
carrying `n`.
-/

namespace WS

/-- Error values that can travel on an error channel: a thrown exception,
a transport CloseEvent delivered as an error, the typed TypeError built
from `WEBSOCKETSUBJECT_INVALID_ERROR_OBJECT`, a caller-supplied error
object with `code`/`reason` fields, or a plain transport Event. -/
inductive EV where
  | thrown (n : Nat)
  | closeEvt (wasClean : Bool)
  | invalidClose
  | errObj (code : Nat) (reason : Nat)
  | plainEvt
deriving Repr, DecidableEq

/-- The test `err && err.code` from the destination Subscriber's error
handler: only a caller error object whose `code` field is truthy (a
JavaScript number is truthy iff it is nonzero) yields close arguments. -/
def evCode : EV → Option (Nat × Nat)
  | .errObj c r => if c ≠ 0 then some (c, r) else none
  | _ => none

/-- The immutable `_config` of a `WebSocketSubject`: the serializer and
deserializer (`.error n` models a throw), and which of the three
optional lifecycle observers are configured. -/
structure Config where
  serializer : Nat → Except Nat Nat
  deserializer : Nat → Except Nat Nat
  hasOpenObserver : Bool
  hasCloseObserver : Bool
  hasClosingObserver : Bool

/-- Modelled from the spec: the BroadcastHub (the repository's `Subject`
class, not under src/) — a list of attached consumers, delivery of each
event to every current consumer in attach order, and a stopped flag set
by error/completion after which the observer list is cleared and
further events are ignored; a late subscriber to a stopped subject
immediately receives the stored error or completion. -/
structure SubjState where
  observers : List Nat
  stopped : Bool
  errVal : Option EV
  completed : Bool
deriving Repr, DecidableEq

/-- One transport socket: its `readyState` (0 = Connecting, 1 = Open,
2 = Closing, 3 = Closed), the index of the `_output` subject captured
by `_connectSocket`'s closures when this socket was created, and
whether the post-open destination Subscriber bound to this socket has
been stopped. -/
structure Sock where
  readyState : Nat
  obsId : Nat
  destClosed : Bool
deriving Repr, DecidableEq

/-- The current `this.destination`: either the pre-open queue (a
`ReplaySubject` holding the raw, unserialized buffered values, plus its
stored error / completion flags), or the post-open Subscriber bound to
socket `k` created in `socket.onopen`. -/
inductive Dst where
  | replay (buf : List Nat) (err : Option EV) (done : Bool)
  | post (k : Nat)
deriving Repr, DecidableEq

/-- The mutable state of one `WebSocketSubject` (the no-`source` case
produced by the `webSocket` factory; `lift` is not modelled). -/
structure WSState where
  config : Config
  subjects : List SubjState
  outputId : Nat
  socks : List Sock
  socketRef : Option Nat
  destination : Dst

/-- Observable effects of one operation, in order of occurrence. -/
inductive Eff where
  | send (k : Nat) (msg : Nat)
  | close (k : Nat) (arg : Option (Nat × Nat))
  | cNext (c : Nat) (v : Nat)
  | cError (c : Nat) (e : EV)
  | cComplete (c : Nat)
  | hookOpen
  | hookClose
  | hookClosing
deriving Repr, DecidableEq

/-- Read a subject from the arena (out-of-range reads yield an inert
empty subject, never hit by well-formed runs). -/
def subjGet (s : WSState) (i : Nat) : SubjState :=
  s.subjects.getD i ⟨[], false, none, false⟩

/-- Read a socket from the arena (out-of-range reads yield an inert
closed socket, never hit by well-formed runs). -/
def sockGet (s : WSState) (k : Nat) : Sock :=
  s.socks.getD k ⟨3, 0, true⟩

def sockSet (s : WSState) (k : Nat) (sk : Sock) : WSState :=
  { s with socks := s.socks.set k sk }

/-- Modelled from the spec: `Subject.next` — deliver the value to every
currently attached consumer unless the subject is stopped. -/
def subjNext (s : WSState) (i : Nat) (v : Nat) : WSState × List Eff :=
  let sb := subjGet s i
  if sb.stopped then (s, [])
  else (s, sb.observers.map (fun c => Eff.cNext c v))

/-- Modelled from the spec: `Subject.error` — deliver the error to every
current consumer, then mark the subject stopped and clear its observers. -/
def subjError (s : WSState) (i : Nat) (e : EV) : WSState × List Eff :=
  let sb := subjGet s i
  if sb.stopped then (s, [])
  else ({ s with subjects :=
            s.subjects.set i { sb with stopped := true, errVal := some e, observers := [] } },
        sb.observers.map (fun c => Eff.cError c e))

/-- Modelled from the spec: `Subject.complete` — deliver completion to
every current consumer, then mark the subject stopped and clear it. -/
def subjComplete (s : WSState) (i : Nat) : WSState × List Eff :=
  let sb := subjGet s i
  if sb.stopped then (s, [])
  else ({ s with subjects :=
            s.subjects.set i { sb with stopped := true, completed := true, observers := [] } },
        sb.observers.map (fun c => Eff.cComplete c))

/-- Modelled from the spec: `Subject.subscribe` — attach consumer `c`;
a subject that already errored or completed immediately notifies the
late subscriber instead of attaching it. -/
def subjSubscribe (s : WSState) (i : Nat) (c : Nat) : WSState × List Eff :=
  let sb := subjGet s i
  match sb.errVal with
  | some e => (s, [Eff.cError c e])
  | none =>
    if sb.completed then (s, [Eff.cComplete c])
    else ({ s with subjects := s.subjects.set i { sb with observers := sb.observers ++ [c] } }, [])

/-- `_resetState`: drop the socket handle, install a fresh
`ReplaySubject` as destination (the `source` field is always absent in
the modelled factory path) and a fresh `Subject` as `_output`. -/
def resetState (s : WSState) : WSState :=
  { s with socketRef := none,
           destination := Dst.replay [] none false,
           subjects := s.subjects ++ [⟨[], false, none, false⟩],
           outputId := s.subjects.length }

/-- A call to `socket.close(...)`: per the transport contract the
readyState moves to Closing when it was Connecting or Open; the call
itself is recorded as an effect with its arguments. -/
def closeSock (s : WSState) (k : Nat) (arg : Option (Nat × Nat)) : WSState × List Eff :=
  let sk := sockGet s k
  (if sk.readyState ≤ 1 then sockSet s k { sk with readyState := 2 } else s,
   [Eff.close k arg])

/-- The `error` handler of the post-open destination Subscriber bound to
socket `k` (lines 310–321): if already stopped, ignore; otherwise stop,
invoke the closing hook if configured, then either close the socket
with the error's `code`/`reason` (when `err && err.code` is truthy) or
deliver the typed invalid-close-argument TypeError to the captured
output subject, and finally `_resetState`. -/
def destErrorPost (s : WSState) (k : Nat) (e : EV) : WSState × List Eff :=
  let sk := sockGet s k
  if sk.destClosed then (s, [])
  else
    let s1 := sockSet s k { sk with destClosed := true }
    let hook : List Eff := if s.config.hasClosingObserver then [Eff.hookClosing] else []
    match evCode e with
    | some cr =>
      let p := closeSock s1 k (some cr)
      (resetState p.1, hook ++ p.2)
    | none =>
      let p := subjError s1 sk.obsId EV.invalidClose
      (resetState p.1, hook ++ p.2)

/-- The `complete` handler of the post-open destination Subscriber
(lines 322–329): closing hook if configured, `socket.close()`, then
`_resetState`. -/
def destCompletePost (s : WSState) (k : Nat) : WSState × List Eff :=
  let sk := sockGet s k
  if sk.destClosed then (s, [])
  else
    let s1 := sockSet s k { sk with destClosed := true }
    let hook : List Eff := if s.config.hasClosingObserver then [Eff.hookClosing] else []
    let p := closeSock s1 k none
    (resetState p.1, hook ++ p.2)

/-- `this.destination.error(e)` on the current destination: a pre-open
`ReplaySubject` merely stores the error (delivering it on replay), the
post-open Subscriber runs its error handler. -/
def wsDestError (s : WSState) (e : EV) : WSState × List Eff :=
  match s.destination with
  | Dst.replay buf err done =>
    if err = none ∧ done = false then
      ({ s with destination := Dst.replay buf (some e) done }, [])
    else (s, [])
  | Dst.post k => destErrorPost s k e

/-- `this.destination.complete()` on the current destination. -/
def wsDestComplete (s : WSState) : WSState × List Eff :=
  match s.destination with
  | Dst.replay buf err done =>
    if err = none ∧ done = false then
      ({ s with destination := Dst.replay buf err true }, [])
    else (s, [])
  | Dst.post k => destCompletePost s k

/-- The `next` handler of the post-open destination Subscriber bound to
socket `k` (lines 300–309): if the Subscriber is stopped, ignore; if
`socket.readyState === 1`, serialize and send, routing a serializer
throw to `this.destination.error`; for any other readyState the value
is silently dropped. -/
def destNextPost (s : WSState) (k : Nat) (v : Nat) : WSState × List Eff :=
  let sk := sockGet s k
  if sk.destClosed then (s, [])
  else if sk.readyState = 1 then
    match s.config.serializer v with
    | Except.ok m => (s, [Eff.send k m])
    | Except.error n => wsDestError s (EV.thrown n)
  else (s, [])

/-- `this.next(v)` (`AnonymousSubject.next` forwards to
`this.destination.next`): a pre-open `ReplaySubject` appends the raw
value to its buffer (unless stopped), the post-open Subscriber sends. -/
def wsNext (s : WSState) (v : Nat) : WSState × List Eff :=
  match s.destination with
  | Dst.replay buf err done =>
    if err = none ∧ done = false then
      ({ s with destination := Dst.replay (buf ++ [v]) err done }, [])
    else (s, [])
  | Dst.post k => destNextPost s k v

/-- `_connectSocket` construction part (lines 262–276): construct a new
transport socket in the Connecting state, capturing the current
`_output` for the callbacks, and store it as `this._socket`. -/
def connectSocket (s : WSState) : WSState :=
  { s with socks := s.socks ++ [⟨0, s.outputId, false⟩],
           socketRef := some s.socks.length }

/-- `_subscribe` (lines 368–387), attach part: connect if there is no
current socket, then subscribe the consumer to `_output`. -/
def wsAttach (s : WSState) (c : Nat) : WSState × List Eff :=
  let s1 := if s.socketRef = none then connectSocket s else s
  subjSubscribe s1 s1.outputId c

/-- Remove consumer `c` from whichever subject it is attached to. -/
def removeConsumer (s : WSState) (c : Nat) : WSState :=
  { s with subjects := s.subjects.map (fun sb => { sb with observers := sb.observers.erase c }) }

/-- The finalizer added in `_subscribe` (lines 377–385): after the
consumer is removed, if the current `_output` has no observers left,
close the socket when its readyState is Open or Connecting, and
`_resetState`. -/
def wsDetach (s : WSState) (c : Nat) : WSState × List Eff :=
  let s1 := removeConsumer s c
  if (subjGet s1 s1.outputId).observers = [] then
    match s1.socketRef with
    | some k =>
      let sk := sockGet s1 k
      if sk.readyState = 1 ∨ sk.readyState = 0 then
        let p := closeSock s1 k none
        (resetState p.1, p.2)
      else (resetState s1, [])
    | none => (resetState s1, [])
  else (s1, [])

/-- Replay of the pre-open queue into the freshly created destination
Subscriber (line 333, `queue.subscribe(this.destination)`): the
`ReplaySubject` delivers its buffered values in FIFO order to that
Subscriber, then its stored error or completion if any. -/
def flushQueue (s : WSState) (k : Nat) :
    List Nat → Option EV → Bool → WSState × List Eff
  | [], some e, _ => destErrorPost s k e
  | [], none, true => destCompletePost s k
  | [], none, false => (s, [])
  | v :: rest, err, done =>
    let p := destNextPost s k v
    let q := flushQueue p.1 k rest err done
    (q.1, p.2 ++ q.2)

/-- `socket.onopen` (lines 285–335), fired on socket `k`: the transport
sets readyState to Open before the callback runs.  If `this._socket`
has already been cleared, close the socket and reset without any of the
open sequence.  Otherwise invoke the open hook if configured, replace
the destination with a Subscriber bound to socket `k`, and if the
previous destination was the `ReplaySubject` queue, replay it through
the new destination. -/
def onOpen (s : WSState) (k : Nat) : WSState × List Eff :=
  let s1 := sockSet s k { sockGet s k with readyState := 1 }
  match s.socketRef with
  | none =>
    let p := closeSock s1 k none
    (resetState p.1, p.2)
  | some _ =>
    let hook : List Eff := if s.config.hasOpenObserver then [Eff.hookOpen] else []
    let queue := s.destination
    let s2 := { s1 with destination := Dst.post k }
    match queue with
    | Dst.replay buf err done =>
      let p := flushQueue s2 k buf err done
      (p.1, hook ++ p.2)
    | Dst.post _ => (s2, hook)

/-- `socket.onmessage` (lines 357–364), fired on socket `k` with wire
payload `d`: deserialize and deliver to the captured output subject; a
deserializer throw is routed to that subject's error path. -/
def onMessage (s : WSState) (k : Nat) (d : Nat) : WSState × List Eff :=
  let obs := (sockGet s k).obsId
  match s.config.deserializer d with
  | Except.ok v => subjNext s obs v
  | Except.error n => subjError s obs (EV.thrown n)

/-- `socket.onerror` (lines 337–340): `_resetState`, then route the raw
event as an error to the captured output subject. -/
def onSockError (s : WSState) (k : Nat) : WSState × List Eff :=
  let obs := (sockGet s k).obsId
  subjError (resetState s) obs EV.plainEvt

/-- `socket.onclose` (lines 342–355), fired on socket `k`: the transport
sets readyState to Closed first.  If the closing socket is still
`this._socket`, `_resetState`; then the close hook if configured; then
completion to the captured output subject when `wasClean`, else the
close event as an error. -/
def onClose (s : WSState) (k : Nat) (wasClean : Bool) : WSState × List Eff :=
  let s1 := sockSet s k { sockGet s k with readyState := 3 }
  let obs := (sockGet s k).obsId
  let s2 := if s.socketRef = some k then resetState s1 else s1
  let hook : List Eff := if s.config.hasCloseObserver then [Eff.hookClose] else []
  if wasClean then
    let p := subjComplete s2 obs
    (p.1, hook ++ p.2)
  else
    let p := subjError s2 obs (EV.closeEvt wasClean)
    (p.1, hook ++ p.2)

/-- Driver events: caller operations and transport callbacks. -/
inductive Ev where
  | attach (c : Nat)
  | detach (c : Nat)
  | next (v : Nat)
  | callerError (e : EV)
  | callerComplete
  | opened (k : Nat)
  | message (k : Nat) (d : Nat)
  | transportError (k : Nat)
  | closedEvt (k : Nat) (wasClean : Bool)
deriving Repr, DecidableEq

def step (s : WSState) : Ev → WSState × List Eff
  | Ev.attach c => wsAttach s c
  | Ev.detach c => wsDetach s c
  | Ev.next v => wsNext s v
  | Ev.callerError e => wsDestError s e
  | Ev.callerComplete => wsDestComplete s
  | Ev.opened k => onOpen s k
  | Ev.message k d => onMessage s k d
  | Ev.transportError k => onSockError s k
  | Ev.closedEvt k b => onClose s k b

def run (s : WSState) : List Ev → WSState × List Eff
  | [] => (s, [])
  | e :: rest =>
    let p := step s e
    let q := run p.1 rest
    (q.1, p.2 ++ q.2)

/-- The state built by the `WebSocketSubject` constructor in the factory
path: a fresh `_output` Subject, a fresh `ReplaySubject` destination,
no socket. -/
def initWS (cfg : Config) : WSState :=
  { config := cfg,
    subjects := [⟨[], false, none, false⟩],
    outputId := 0,
    socks := [],
    socketRef := none,
    destination := Dst.replay [] none false }

/-- The socket send calls of a trace, as (socket, payload) pairs in order. -/
def sends : List Eff → List (Nat × Nat) :=
  List.filterMap (fun e => match e with
    | Eff.send k m => some (k, m)
    | _ => none)

/-- The events the machine delivers to one particular consumer. -/
inductive CEv where
  | nx (v : Nat)
  | er (e : EV)
  | cp
deriving Repr, DecidableEq

/-- Restrict an effect trace to the deliveries made to consumer `c`. -/
def consumerEvs (c : Nat) : List Eff → List CEv :=
  List.filterMap (fun e => match e with
    | Eff.cNext c1 v => if c1 = c then some (CEv.nx v) else none
    | Eff.cError c1 e1 => if c1 = c then some (CEv.er e1) else none
    | Eff.cComplete c1 => if c1 = c then some CEv.cp else none
    | _ => none)

/-- The events a multiplex channel delivers to its own consumer. -/
inductive ChEv where
  | nx (v : Nat)
  | er (e : EV)
  | cp
deriving Repr, DecidableEq

/-- The inner observer installed by `multiplex` (lines 237–249), as a
transformation of the stream of hub deliveries to the channel's inner
consumer: a value is passed to `messageFilter`, forwarded on `.ok true`,
dropped on `.ok false`; a filter throw, an upstream error and upstream
completion are forwarded to the channel's consumer.  The boolean flag
models the channel consumer's Subscriber being stopped after its first
error or completion, so later deliveries are discarded (Modelled from
the spec: the repository's Subscriber class, not under src/, stops
after a terminal notification). -/
def chanRun (flt : Nat → Except Nat Bool) : Bool → List CEv → List ChEv
  | _, [] => []
  | true, _ :: rest => chanRun flt true rest
  | false, CEv.nx v :: rest =>
    match flt v with
    | Except.ok true => ChEv.nx v :: chanRun flt false rest
    | Except.ok false => chanRun flt false rest
    | Except.error n => ChEv.er (EV.thrown n) :: chanRun flt true rest
  | false, CEv.er e :: rest => ChEv.er e :: chanRun flt true rest
  | false, CEv.cp :: rest => ChEv.cp :: chanRun flt true rest

/-- The body of the function passed to `new Observable` in `multiplex`
(lines 230–249), run when the channel is first subscribed with inner
consumer id `c`: `self.next(subMsg())` with a throw routed to the
channel's consumer, then `self.subscribe(...)` (which always runs, even
after a throw).  Returns the machine state, the machine effects, and
the pair (deliveries already made directly to the channel consumer,
whether that consumer is now stopped). -/
def mpAttach (s : WSState) (subMsg : Except Nat Nat) (c : Nat) :
    WSState × List Eff × (List ChEv × Bool) :=
  match subMsg with
  | Except.ok m =>
    let p := wsNext s m
    let q := wsAttach p.1 c
    (q.1, p.2 ++ q.2, ([], false))
  | Except.error n =>
    let q := wsAttach s c
    (q.1, q.2, ([ChEv.er (EV.thrown n)], true))

/-- The teardown returned by the `multiplex` subscribe body (lines
251–258): `self.next(unsubMsg())` with a throw routed to the channel's
consumer (dropped if that consumer is already stopped), then the inner
subscription is unsubscribed. -/
def mpDetach (s : WSState) (unsubMsg : Except Nat Nat) (c : Nat) (closed : Bool) :
    WSState × List Eff × List ChEv :=
  match unsubMsg with
  | Except.ok m =>
    let p := wsNext s m
    let q := wsDetach p.1 c
    (q.1, p.2 ++ q.2, [])
  | Except.error n =>
    let q := wsDetach s c
    (q.1, q.2, if closed then [] else [ChEv.er (EV.thrown n)])

/-- The three ways a multiplex channel can be deactivated. -/
inductive DetachCause where
  | unsub
  | upstreamComplete
  | upstreamError
deriving Repr, DecidableEq

/-- Modelled from the spec: finalization of the channel's subscription
runs the registered teardown exactly once whether it is triggered by
consumer unsubscription, upstream completion, or upstream error. -/
def mpDetachBy (_cause : DetachCause) (s : WSState) (unsubMsg : Except Nat Nat)
    (c : Nat) (closed : Bool) : WSState × List Eff × List ChEv :=
  mpDetach s unsubMsg c closed

/-- A concrete configuration with total, injective serializer
`v ↦ v + 1`, identity deserializer, and no hooks, used by witnesses. -/
def cfg0 : Config :=
  { serializer := fun v => Except.ok (v + 1),
    deserializer := fun d => Except.ok d,
    hasOpenObserver := false,
    hasCloseObserver := false,
    hasClosingObserver := false }

/-- A concrete open-connection state used by witnesses: two consumers 4
and 5 attached to the current output subject, socket 0 open, post-open
destination bound to socket 0. -/
def stOpen : WSState :=
  { config := cfg0,
    subjects := [⟨[4, 5], false, none, false⟩],
    outputId := 0,
    socks := [⟨1, 0, false⟩],
    socketRef := some 0,
    destination := Dst.post 0 }

/-- A concrete configuration whose serializer always throws, used by the
encode-failure witness. -/
def cfgThrow : Config :=
  { serializer := fun _ => Except.error 9,
    deserializer := fun d => Except.ok d,
    hasOpenObserver := false,
    hasCloseObserver := false,
    hasClosingObserver := true }

/-- `stOpen` with the always-throwing serializer configuration. -/
def stOpenThrow : WSState :=
  { stOpen with config := cfgThrow }

/-- A concrete filter that throws on inputs 10 and 11 and rejects
everything else, used by the filter-isolation counterexample. -/
def fltX0 : Nat → Except Nat Bool :=
  fun v => if v = 10 then Except.error 5 else if v = 11 then Except.error 5 else Except.ok false

/-- A concrete filter accepting only the value 20, used by the
filter-isolation counterexample. -/
def fltY0 : Nat → Except Nat Bool :=
  fun v => Except.ok (decide (v = 20))

/-- A concrete filter accepting only the value 30, disjoint from
`fltY0`, used by the filter-isolation witness. -/
def fltX1 : Nat → Except Nat Bool :=
  fun v => Except.ok (decide (v = 30))

/-- The state reached from `initWS cfg` after one consumer attaches and
`buf` values are offered pre-open: socket 0 Connecting, raw values
queued in the `ReplaySubject` destination. -/
def stConnecting (cfg : Config) (c : Nat) (buf : List Nat) : WSState :=
  { config := cfg,
    subjects := [⟨[c], false, none, false⟩],
    outputId := 0,
    socks := [⟨0, 0, false⟩],
    socketRef := some 0,
    destination := Dst.replay buf none false }

/-- The state reached after the open event on socket 0 with one consumer
attached: destination is the post-open Subscriber bound to socket 0. -/
def stOpened (cfg : Config) (c : Nat) : WSState :=
  { config := cfg,
    subjects := [⟨[c], false, none, false⟩],
    outputId := 0,
    socks := [⟨1, 0, false⟩],
    socketRef := some 0,
    destination := Dst.post 0 }

/-- The state reached from `initWS cfg` after consumers `a` then `b`
attach, socket 0 still Connecting. -/
def stConn2 (cfg : Config) (a b : Nat) : WSState :=
  { config := cfg,
    subjects := [⟨[a, b], false, none, false⟩],
    outputId := 0,
    socks := [⟨0, 0, false⟩],
    socketRef := some 0,
    destination := Dst.replay [] none false }

/-- `stConn2` after the open event on socket 0. -/
def stOpen2 (cfg : Config) (a b : Nat) : WSState :=
  { config := cfg,
    subjects := [⟨[a, b], false, none, false⟩],
    outputId := 0,
    socks := [⟨1, 0, false⟩],
    socketRef := some 0,
    destination := Dst.post 0 }

/-- `stOpen` with its socket moved to the Closing readyState, used by
the discard-when-not-open witness. -/
def stClosing : WSState :=
  { stOpen with socks := [⟨2, 0, false⟩] }

/-- A state caught in the open/teardown race: a buffered value is
queued, the socket exists, but the manager's handle has already been
cleared by a concurrent teardown. -/
def stRace : WSState :=
  { stOpen with socketRef := none, destination := Dst.replay [8] none false }

/-- `stOpen` with a single remaining consumer 5, used by the
last-consumer teardown witness. -/
def stLast : WSState :=
  { stOpen with subjects := [⟨[5], false, none, false⟩] }

theorem run_append (s : WSState) (a b : List Ev) :
    run s (a ++ b) = ((run (run s a).1 b).1, (run s a).2 ++ (run (run s a).1 b).2) := by
  induction a generalizing s with
  | nil => simp [run]
  | cons e a ih => simp [run, ih]

theorem sends_append (a b : List Eff) : sends (a ++ b) = sends a ++ sends b := by
  simp [sends]

theorem consumerEvs_append (c : Nat) (a b : List Eff) :
    consumerEvs c (a ++ b) = consumerEvs c a ++ consumerEvs c b := by
  simp [consumerEvs]

theorem subjGet_removeConsumer (s : WSState) (c i : Nat) :
    subjGet (removeConsumer s c) i =
      { subjGet s i with observers := (subjGet s i).observers.erase c } := by
  simp only [subjGet, removeConsumer, List.getD_eq_getElem?_getD, List.getElem?_map]
  cases h : s.subjects[i]? <;> rfl

theorem subjGet_resetState (s : WSState) (i : Nat) :
    subjGet (resetState s) i = subjGet s i := by
  simp only [subjGet, resetState, List.getD_eq_getElem?_getD]
  rcases lt_trichotomy i s.subjects.length with h | h | h
  · rw [List.getElem?_append_left h]
  · subst h
    have h1 : (s.subjects ++ [(⟨[], false, none, false⟩ : SubjState)])[s.subjects.length]? =
        some ⟨[], false, none, false⟩ := by
      rw [List.getElem?_append_right (Nat.le_refl _)]
      simp
    rw [h1, List.getElem?_eq_none (Nat.le_refl _)]
    rfl
  · rw [List.getElem?_eq_none (le_of_lt h), List.getElem?_eq_none]
    simp only [List.length_append, List.length_cons, List.length_nil]
    omega

theorem sockGet_out_of_range (s : WSState) (k : Nat) (h : s.socks.length ≤ k) :
    sockGet s k = ⟨3, 0, true⟩ := by
  simp [sockGet, List.getD_eq_getElem?_getD, List.getElem?_eq_none h]

theorem destClosed_in_range (s : WSState) (k : Nat)
    (h : (sockGet s k).destClosed = false) : k < s.socks.length := by
  by_contra hk
  rw [sockGet_out_of_range s k (Nat.le_of_not_lt hk)] at h
  simp at h

theorem sockGet_sockSet_self (s : WSState) (k : Nat) (sk : Sock)
    (h : k < s.socks.length) : sockGet (sockSet s k sk) k = sk := by
  simp [sockGet, sockSet, List.getD_eq_getElem?_getD, List.getElem?_set_self h]

theorem run_nexts_replay (vs : List Nat) : ∀ (s : WSState) (buf : List Nat),
    s.destination = Dst.replay buf none false →
    run s (vs.map Ev.next) =
      ({ s with destination := Dst.replay (buf ++ vs) none false }, []) := by
  induction vs with
  | nil =>
    intro s buf h
    simp only [List.map_nil, run, List.append_nil, ← h]
  | cons v vs ih =>
    intro s buf h
    have h2 : step s (Ev.next v) =
        ({ s with destination := Dst.replay (buf ++ [v]) none false }, []) := by
      simp [step, wsNext, h]
    simp only [List.map_cons, run, h2]
    rw [ih _ (buf ++ [v]) rfl]
    simp [List.append_assoc]

theorem flushQueue_ok (k : Nat) (f : Nat → Nat) :
    ∀ (buf : List Nat) (s : WSState),
    (sockGet s k).destClosed = false →
    (sockGet s k).readyState = 1 →
    (∀ v ∈ buf, s.config.serializer v = Except.ok (f v)) →
    flushQueue s k buf none false = (s, buf.map (fun v => Eff.send k (f v))) := by
  intro buf
  induction buf with
  | nil => intro s _ _ _; rfl
  | cons v rest ih =>
    intro s hc hr hser
    have h1 : destNextPost s k v = (s, [Eff.send k (f v)]) := by
      simp [destNextPost, hc, hr, hser v (List.mem_cons_self v rest)]
    simp only [flushQueue, h1]
    rw [ih s hc hr (fun u hu => hser u (List.mem_cons_of_mem v hu))]
    simp

theorem run_prefix (cfg : Config) (c : Nat) (vs0 vs1 : List Nat) :
    run (initWS cfg) (vs0.map Ev.next ++ Ev.attach c :: vs1.map Ev.next) =
      (stConnecting cfg c (vs0 ++ vs1), []) := by
  rw [run_append]
  rw [run_nexts_replay vs0 (initWS cfg) [] rfl]
  have hattach : step { initWS cfg with destination := Dst.replay ([] ++ vs0) none false }
      (Ev.attach c) = (stConnecting cfg c vs0, []) := by
    simp [step, wsAttach, connectSocket, subjSubscribe, subjGet, initWS, stConnecting]
  simp only [run, hattach]
  rw [run_nexts_replay vs1 (stConnecting cfg c vs0) vs0 rfl]
  rfl

theorem step_opened (cfg : Config) (c : Nat) (buf : List Nat) (f : Nat → Nat)
    (hser : ∀ v ∈ buf, cfg.serializer v = Except.ok (f v)) :
    step (stConnecting cfg c buf) (Ev.opened 0) =
      (stOpened cfg c,
       (if cfg.hasOpenObserver then [Eff.hookOpen] else []) ++
         buf.map (fun v => Eff.send 0 (f v))) := by
  have hflush : flushQueue (stOpened cfg c) 0 buf none false =
      (stOpened cfg c, buf.map (fun v => Eff.send 0 (f v))) :=
    flushQueue_ok 0 f buf (stOpened cfg c) rfl rfl hser
  have hS : step (stConnecting cfg c buf) (Ev.opened 0) =
      ((flushQueue (stOpened cfg c) 0 buf none false).1,
       (if cfg.hasOpenObserver then [Eff.hookOpen] else []) ++
         (flushQueue (stOpened cfg c) 0 buf none false).2) := rfl
  rw [hS, hflush]

theorem run_attach2_open (cfg : Config) (a b : Nat) :
    run (initWS cfg) [Ev.attach a, Ev.attach b, Ev.opened 0] =
      (stOpen2 cfg a b, if cfg.hasOpenObserver then [Eff.hookOpen] else []) := by
  have h1 : step (initWS cfg) (Ev.attach a) = (stConnecting cfg a [], []) := by
    simp [step, wsAttach, connectSocket, subjSubscribe, subjGet, initWS, stConnecting]
  have h2 : step (stConnecting cfg a []) (Ev.attach b) = (stConn2 cfg a b, []) := by
    simp [step, wsAttach, subjSubscribe, subjGet, stConnecting, stConn2]
  have h3 : step (stConn2 cfg a b) (Ev.opened 0) =
      (stOpen2 cfg a b, (if cfg.hasOpenObserver then [Eff.hookOpen] else []) ++ []) := rfl
  simp [run, h1, h2, h3]

theorem run_messages (g : Nat → Nat) (obsL : List Nat) :
    ∀ (ds : List Nat) (s : WSState) (k : Nat),
    (∀ d ∈ ds, s.config.deserializer d = Except.ok (g d)) →
    subjGet s ((sockGet s k).obsId) = ⟨obsL, false, none, false⟩ →
    run s (ds.map (Ev.message k)) =
      (s, (ds.map (fun d => obsL.map (fun c => Eff.cNext c (g d)))).flatten) := by
  intro ds
  induction ds with
  | nil => intro s k _ _; rfl
  | cons d ds ih =>
    intro s k hde hsubj
    have h1 : step s (Ev.message k d) = (s, obsL.map (fun c => Eff.cNext c (g d))) := by
      simp [step, onMessage, hde d (List.mem_cons_self d ds), subjNext, hsubj]
    simp only [List.map_cons, run, h1]
    rw [ih s k (fun u hu => hde u (List.mem_cons_of_mem d hu)) hsubj]
    simp

theorem consumerEvs_pair_left (x y : Nat) (g : Nat → Nat) (h : y ≠ x) :
    ∀ ds : List Nat,
    consumerEvs x ((ds.map (fun d => [Eff.cNext x (g d), Eff.cNext y (g d)])).flatten) =
      ds.map (fun d => CEv.nx (g d)) := by
  intro ds
  induction ds with
  | nil => rfl
  | cons d ds ih => simp [consumerEvs, h, ih, List.filterMap_append] at ih ⊢; exact ih

theorem consumerEvs_pair_right (x y : Nat) (g : Nat → Nat) (h : x ≠ y) :
    ∀ ds : List Nat,
    consumerEvs y ((ds.map (fun d => [Eff.cNext x (g d), Eff.cNext y (g d)])).flatten) =
      ds.map (fun d => CEv.nx (g d)) := by
  intro ds
  induction ds with
  | nil => rfl
  | cons d ds ih => simp [consumerEvs, h, ih, List.filterMap_append] at ih ⊢; exact ih

theorem chanRun_stopped (flt : Nat → Except Nat Bool) :
    ∀ l : List CEv, chanRun flt true l = [] := by
  intro l
  induction l with
  | nil => rfl
  | cons e rest ih => rw [chanRun]; exact ih

theorem chanRun_nx_mem (flt : Nat → Except Nat Bool) :
    ∀ (l : List CEv) (b : Bool) (v : Nat),
    ChEv.nx v ∈ chanRun flt b l → flt v = Except.ok true := by
  intro l
  induction l with
  | nil => intro b v h; cases b <;> simp [chanRun] at h
  | cons e rest ih =>
    intro b v h
    cases b with
    | true =>
      rw [chanRun] at h
      exact ih true v h
    | false =>
      cases e with
      | nx u =>
        cases he : flt u with
        | error n => simp [chanRun, he, chanRun_stopped] at h
        | ok bb =>
          cases bb with
          | true =>
            simp only [chanRun, he, List.mem_cons] at h
            rcases h with h | h
            · cases h
              exact he
            · exact ih false v h
          | false =>
            simp only [chanRun, he] at h
            exact ih false v h
      | er e1 => simp [chanRun, chanRun_stopped] at h
      | cp => simp [chanRun, chanRun_stopped] at h

theorem chanRun_first_throw (flt : Nat → Except Nat Bool) (n v : Nat) (rest : List CEv) :
    ∀ pre : List Nat,
    (∀ u ∈ pre, ∃ bb, flt u = Except.ok bb) →
    flt v = Except.error n →
    ChEv.er (EV.thrown n) ∈ chanRun flt false (pre.map CEv.nx ++ CEv.nx v :: rest) := by
  intro pre
  induction pre with
  | nil => intro _ hv; simp [chanRun, hv]
  | cons u pre ih =>
    intro hok hv
    obtain ⟨bb, hbb⟩ := hok u (List.mem_cons_self u pre)
    have ih1 := ih (fun w hw => hok w (List.mem_cons_of_mem u hw)) hv
    cases bb with
    | true =>
      simp only [List.map_cons, List.cons_append, chanRun, hbb]
      exact List.mem_cons_of_mem _ ih1
    | false =>
      simp only [List.map_cons, List.cons_append, chanRun, hbb]
      exact ih1

/-- C10: a value delivered to the post-open destination while the
socket's readyState is not Open (Closing or Closed) is silently
discarded — the state is unchanged (nothing is sent, nothing is
buffered) and no effect of any kind (in particular no consumer
notification) is produced. -/
theorem c10_discard_not_open (s : WSState) (k v : Nat)
    (hdest : s.destination = Dst.post k)
    (hready : (sockGet s k).readyState ≠ 1) :
    step s (Ev.next v) = (s, []) := by
  cases hc : (sockGet s k).destClosed <;>
    simp [step, wsNext, hdest, destNextPost, hc, hready]

/-- C10 witness: a concrete post-open state whose socket is Closing. -/
theorem c10_discard_not_open_witness :
    stClosing.destination = Dst.post 0 ∧
    (sockGet stClosing 0).readyState ≠ 1 ∧
    step stClosing (Ev.next 3) = (stClosing, []) :=
  ⟨rfl, by decide, c10_discard_not_open stClosing 0 3 rfl (by decide)⟩

/-- C9: when the open event fires after the manager's socket handle has
already been cleared, the transport socket is closed immediately and
the state is reset; the open hook is not invoked, the destination is
not replaced by a connection-bound one, and nothing is sent (the
buffer is not flushed). -/
theorem c9_open_after_teardown (s : WSState) (k : Nat)
    (href : s.socketRef = none) :
    (step s (Ev.opened k)).2 = [Eff.close k none]
    ∧ (step s (Ev.opened k)).1.socketRef = none
    ∧ (step s (Ev.opened k)).1.destination = Dst.replay [] none false
    ∧ Eff.hookOpen ∉ (step s (Ev.opened k)).2
    ∧ sends (step s (Ev.opened k)).2 = [] := by
  simp [step, onOpen, href, closeSock, resetState, sends]

/-- C9 witness: a concrete state holding a buffered value whose handle
was cleared by a concurrent teardown before the open event fired. -/
theorem c9_open_after_teardown_witness :
    stRace.socketRef = none ∧
    (step stRace (Ev.opened 0)).2 = [Eff.close 0 none] ∧
    Eff.hookOpen ∉ (step stRace (Ev.opened 0)).2 ∧
    sends (step stRace (Ev.opened 0)).2 = [] := by
  have h := c9_open_after_teardown stRace 0 rfl
  exact ⟨rfl, h.1, h.2.2.2.1, h.2.2.2.2⟩

/-- C6: a serializer failure on a value offered while the connection is
Open is caught and routed to the current destination's error path (the
step is literally the destination error path on the thrown value), no
close call is made, and the physical socket stays Open. -/
theorem c6_encode_error_routed (s : WSState) (k v n : Nat)
    (hdest : s.destination = Dst.post k)
    (hclosed : (sockGet s k).destClosed = false)
    (hready : (sockGet s k).readyState = 1)
    (hser : s.config.serializer v = Except.error n) :
    step s (Ev.next v) = wsDestError s (EV.thrown n)
    ∧ (∀ arg, Eff.close k arg ∉ (step s (Ev.next v)).2)
    ∧ (sockGet (step s (Ev.next v)).1 k).readyState = 1 := by
  have hk := destClosed_in_range s k hclosed
  have h1 : step s (Ev.next v) = wsDestError s (EV.thrown n) := by
    simp [step, wsNext, hdest, destNextPost, hclosed, hready, hser]
  have h2 : wsDestError s (EV.thrown n) = destErrorPost s k (EV.thrown n) := by
    simp [wsDestError, hdest]
  rw [h1, h2]
  have hsock : ∀ t : WSState,
      t.socks = (sockSet s k { sockGet s k with destClosed := true }).socks →
      (sockGet t k).readyState = 1 := by
    intro t ht
    have he : sockGet t k = { sockGet s k with destClosed := true } := by
      simp [sockGet, ht, sockSet, List.getD_eq_getElem?_getD, List.getElem?_set_self hk]
    rw [he]
    exact hready
  refine ⟨rfl, ?_, ?_⟩
  · intro arg
    simp only [destErrorPost, hclosed, Bool.false_eq_true, if_false, evCode, subjError]
    cases hco : s.config.hasClosingObserver <;> simp [hco] <;> split <;> simp
  · apply hsock
    simp only [destErrorPost, hclosed, Bool.false_eq_true, if_false, evCode, subjError]
    split <;> rfl

/-- C6 witness: the always-throwing serializer on the concrete open
state with two attached consumers. -/
theorem c6_encode_error_routed_witness :
    stOpenThrow.destination = Dst.post 0 ∧
    (sockGet stOpenThrow 0).destClosed = false ∧
    (sockGet stOpenThrow 0).readyState = 1 ∧
    stOpenThrow.config.serializer 3 = Except.error 9 ∧
    step stOpenThrow (Ev.next 3) = wsDestError stOpenThrow (EV.thrown 9) ∧
    (∀ arg, Eff.close 0 arg ∉ (step stOpenThrow (Ev.next 3)).2) ∧
    (sockGet (step stOpenThrow (Ev.next 3)).1 0).readyState = 1 := by
  have h := c6_encode_error_routed stOpenThrow 0 3 9 rfl rfl rfl rfl
  exact ⟨rfl, rfl, rfl, rfl, h.1, h.2.1, h.2.2⟩

/-- C7: a locally-raised error reaching the destination's error path
while the connection is open invokes the closing hook first (when
configured); if the error value has a truthy `code` the socket is
closed with that code and reason; otherwise no close call is made and
the typed invalid-close-argument error is delivered to all current
consumers instead. -/
theorem c7_invalid_close_argument (s : WSState) (k : Nat) (e : EV)
    (hdest : s.destination = Dst.post k)
    (hclosed : (sockGet s k).destClosed = false)
    (hready : (sockGet s k).readyState = 1)
    (hobs : (sockGet s k).obsId = s.outputId)
    (hstop : (subjGet s s.outputId).stopped = false) :
    (s.config.hasClosingObserver = true →
      (step s (Ev.callerError e)).2.head? = some Eff.hookClosing)
    ∧ (∀ cd r, evCode e = some (cd, r) →
        (step s (Ev.callerError e)).2 =
          (if s.config.hasClosingObserver then [Eff.hookClosing] else []) ++
            [Eff.close k (some (cd, r))])
    ∧ (evCode e = none →
        (∀ arg, Eff.close k arg ∉ (step s (Ev.callerError e)).2)
        ∧ (step s (Ev.callerError e)).2 =
            (if s.config.hasClosingObserver then [Eff.hookClosing] else []) ++
              (subjGet s s.outputId).observers.map (fun c => Eff.cError c EV.invalidClose)) := by
  have h0 : step s (Ev.callerError e) = destErrorPost s k e := by
    simp [step, wsDestError, hdest]
  have hsubjset : ∀ (x : Sock) (i : Nat), subjGet (sockSet s k x) i = subjGet s i :=
    fun x i => rfl
  rcases hcode : evCode e with _ | ⟨cd, r⟩
  · have heff : (destErrorPost s k e).2 =
        (if s.config.hasClosingObserver then [Eff.hookClosing] else []) ++
          (subjGet s s.outputId).observers.map (fun c => Eff.cError c EV.invalidClose) := by
      simp [destErrorPost, hclosed, hcode, subjError, hsubjset, hobs, hstop]
    refine ⟨?_, ?_, ?_⟩
    · intro hco
      rw [h0, heff, hco]
      simp
    · intro cd r hc
      cases hc
    · intro _
      refine ⟨?_, by rw [h0, heff]⟩
      intro arg
      rw [h0, heff]
      cases hco : s.config.hasClosingObserver <;> simp [hco]
  · have heff : (destErrorPost s k e).2 =
        (if s.config.hasClosingObserver then [Eff.hookClosing] else []) ++
          [Eff.close k (some (cd, r))] := by
      simp [destErrorPost, hclosed, hcode, closeSock]
    refine ⟨?_, ?_, ?_⟩
    · intro hco
      rw [h0, heff, hco]
      simp
    · intro cd1 r1 hc
      injection hc with hc
      injection hc with hc1 hc2
      subst hc1
      subst hc2
      rw [h0, heff]
    · intro hc
      cases hc

/-- C7 witness: a caller error object with truthy code 4000 on the
concrete open state closes the socket with that code and reason. -/
theorem c7_invalid_close_argument_witness :
    stOpen.destination = Dst.post 0 ∧
    evCode (EV.errObj 4000 1) = some (4000, 1) ∧
    (step stOpen (Ev.callerError (EV.errObj 4000 1))).2 =
      (if stOpen.config.hasClosingObserver then [Eff.hookClosing] else []) ++
        [Eff.close 0 (some (4000, 1))] := by
  have h := c7_invalid_close_argument stOpen 0 (EV.errObj 4000 1) rfl rfl rfl rfl rfl
  exact ⟨rfl, by decide, h.2.1 4000 1 (by decide)⟩

/-- C2: on a transport close event, the state is reset to Idle when the
closing socket is still the manager's current handle; the close hook is
invoked exactly when configured; a clean close delivers completion to
all current consumers and an unclean close delivers the close event as
an error to all current consumers. -/
theorem c2_transport_close (s : WSState) (k : Nat) (wasClean : Bool)
    (hk : k < s.socks.length)
    (hobs : (sockGet s k).obsId = s.outputId)
    (hstop : (subjGet s s.outputId).stopped = false) :
    (s.socketRef = some k →
      (step s (Ev.closedEvt k wasClean)).1.socketRef = none
      ∧ (step s (Ev.closedEvt k wasClean)).1.destination = Dst.replay [] none false)
    ∧ (Eff.hookClose ∈ (step s (Ev.closedEvt k wasClean)).2 ↔
        s.config.hasCloseObserver = true)
    ∧ (wasClean = true →
        (step s (Ev.closedEvt k wasClean)).2 =
          (if s.config.hasCloseObserver then [Eff.hookClose] else []) ++
            (subjGet s s.outputId).observers.map Eff.cComplete)
    ∧ (wasClean = false →
        (step s (Ev.closedEvt k wasClean)).2 =
          (if s.config.hasCloseObserver then [Eff.hookClose] else []) ++
            (subjGet s s.outputId).observers.map
              (fun c => Eff.cError c (EV.closeEvt false))) := by
  have hg : subjGet
      (if s.socketRef = some k
       then resetState (sockSet s k { sockGet s k with readyState := 3 })
       else sockSet s k { sockGet s k with readyState := 3 })
      ((sockGet s k).obsId) = subjGet s s.outputId := by
    rw [hobs]
    split
    · rw [subjGet_resetState]
      rfl
    · rfl
  have heff : (step s (Ev.closedEvt k wasClean)).2 =
      (if s.config.hasCloseObserver then [Eff.hookClose] else []) ++
        (if wasClean
         then (subjGet s s.outputId).observers.map Eff.cComplete
         else (subjGet s s.outputId).observers.map
           (fun c => Eff.cError c (EV.closeEvt false))) := by
    cases wasClean <;>
      simp [step, onClose, subjComplete, subjError, hg, hstop]
  refine ⟨?_, ?_, ?_, ?_⟩
  · intro hres
    cases wasClean <;> refine ⟨?_, ?_⟩ <;>
      · simp only [step, onClose, subjComplete, subjError]
        rw [if_pos hres]
        rcases hst : (subjGet
            (resetState (sockSet s k ⟨3, (sockGet s k).obsId, (sockGet s k).destClosed⟩))
            ((sockGet s k).obsId)).stopped with _ | _ <;> rfl
  · rw [heff]
    cases hco : s.config.hasCloseObserver <;> cases wasClean <;> simp [hco]
  · intro hw
    subst hw
    rw [heff]
    simp
  · intro hw
    subst hw
    rw [heff]
    simp

/-- C2 witness: a clean close on the concrete open state completes both
attached consumers. -/
theorem c2_transport_close_witness :
    0 < stOpen.socks.length ∧
    (step stOpen (Ev.closedEvt 0 true)).1.socketRef = none ∧
    (step stOpen (Ev.closedEvt 0 true)).2 =
      (if stOpen.config.hasCloseObserver then [Eff.hookClose] else []) ++
        (subjGet stOpen stOpen.outputId).observers.map Eff.cComplete := by
  have h := c2_transport_close stOpen 0 true (by decide) rfl rfl
  exact ⟨by decide, (h.1 rfl).1, h.2.2.1 rfl⟩

theorem wsDetach_last (s : WSState) (c k : Nat)
    (hobs : (subjGet s s.outputId).observers = [c])
    (href : s.socketRef = some k) :
    step s (Ev.detach c) =
      if (sockGet s k).readyState = 1 ∨ (sockGet s k).readyState = 0
      then (resetState (closeSock (removeConsumer s c) k none).1, [Eff.close k none])
      else (resetState (removeConsumer s c), []) := by
  have hrm : (subjGet (removeConsumer s c) (removeConsumer s c).outputId).observers = [] := by
    rw [show (removeConsumer s c).outputId = s.outputId from rfl, subjGet_removeConsumer]
    simp [hobs]
  have href1 : (removeConsumer s c).socketRef = some k := href
  simp only [step, wsDetach, hrm, href1]
  rfl

/-- C3: attaching consumers A then B and opening, then detaching A
alone, emits no close call and leaves the socket handle and its Open
readyState intact; detaching the last remaining consumer emits a close
call if and only if the socket's readyState is Connecting or Open, and
in every case resets the manager to Idle. -/
theorem c3_refcount_teardown (cfg : Config) (a b : Nat) (s : WSState) (k b1 : Nat)
    (hobs : (subjGet s s.outputId).observers = [b1])
    (href : s.socketRef = some k) :
    (run (initWS cfg) [Ev.attach a, Ev.attach b, Ev.opened 0]).1 = stOpen2 cfg a b
    ∧ (step (stOpen2 cfg a b) (Ev.detach a)).2 = []
    ∧ (step (stOpen2 cfg a b) (Ev.detach a)).1.socketRef = some 0
    ∧ (sockGet (step (stOpen2 cfg a b) (Ev.detach a)).1 0).readyState = 1
    ∧ (Eff.close k none ∈ (step s (Ev.detach b1)).2 ↔
        ((sockGet s k).readyState = 0 ∨ (sockGet s k).readyState = 1))
    ∧ (step s (Ev.detach b1)).1.socketRef = none
    ∧ (step s (Ev.detach b1)).1.destination = Dst.replay [] none false := by
  have hA : step (stOpen2 cfg a b) (Ev.detach a) =
      ({ stOpen2 cfg a b with subjects := [⟨[b], false, none, false⟩] }, []) := by
    simp [step, wsDetach, removeConsumer, stOpen2, subjGet]
  have hB := wsDetach_last s b1 k hobs href
  refine ⟨?_, ?_, ?_, ?_, ?_, ?_, ?_⟩
  · rw [run_attach2_open]
  · rw [hA]
  · rw [hA]
    rfl
  · rw [hA]
    rfl
  · rw [hB]
    by_cases hrs : ((sockGet s k).readyState = 1 ∨ (sockGet s k).readyState = 0)
    · rw [if_pos hrs]
      constructor
      · intro _
        exact hrs.elim Or.inr Or.inl
      · intro _
        exact List.mem_singleton.mpr rfl
    · rw [if_neg hrs]
      constructor
      · intro h
        simp at h
      · intro h
        exact absurd (h.elim Or.inr Or.inl) hrs
  · rw [hB]
    split <;> rfl
  · rw [hB]
    split <;> rfl

/-- C3 witness: the concrete two-consumer scenario, and the
last-consumer teardown on the concrete single-consumer open state. -/
theorem c3_refcount_teardown_witness :
    (subjGet stLast stLast.outputId).observers = [5] ∧
    (run (initWS cfg0) [Ev.attach 1, Ev.attach 2, Ev.opened 0]).1 = stOpen2 cfg0 1 2 ∧
    (step (stOpen2 cfg0 1 2) (Ev.detach 1)).2 = [] ∧
    (Eff.close 0 none ∈ (step stLast (Ev.detach 5)).2 ↔
      ((sockGet stLast 0).readyState = 0 ∨ (sockGet stLast 0).readyState = 1)) ∧
    (step stLast (Ev.detach 5)).1.socketRef = none := by
  have h := c3_refcount_teardown cfg0 1 2 stLast 0 5 rfl rfl
  exact ⟨rfl, h.1, h.2.1, h.2.2.2.2.1, h.2.2.2.2.2.1⟩

theorem sends_sendMap (k : Nat) (f : Nat → Nat) (l : List Nat) :
    sends (l.map (fun v => Eff.send k (f v))) = l.map (fun v => (k, f v)) := by
  induction l with
  | nil => rfl
  | cons v l ih =>
    simp [sends] at ih ⊢
    exact ih

theorem sends_nil : sends [] = [] := rfl

theorem sends_hookOpen : sends [Eff.hookOpen] = [] := rfl

theorem sends_single (k m : Nat) : sends [Eff.send k m] = [(k, m)] := rfl

theorem sends_cons_hookOpen (l : List Eff) : sends (Eff.hookOpen :: l) = sends l := rfl

/-- C1: every value passed to the subject while the state is Idle or
Connecting is appended raw to the ReplaySubject buffer and nothing is
sent before open; immediately after the first Open transition exactly
those values are serialized and sent over the socket in FIFO order
exactly once; a value sent while Open bypasses the buffer and is sent
immediately after them. -/
theorem c1_buffering (cfg : Config) (f : Nat → Nat) (c : Nat) (vs0 vs1 : List Nat) (w : Nat)
    (hser : ∀ v ∈ vs0 ++ vs1 ++ [w], cfg.serializer v = Except.ok (f v)) :
    (run (initWS cfg) (vs0.map Ev.next ++ Ev.attach c :: vs1.map Ev.next)).1.destination =
        Dst.replay (vs0 ++ vs1) none false
    ∧ sends (run (initWS cfg) (vs0.map Ev.next ++ Ev.attach c :: vs1.map Ev.next)).2 = []
    ∧ sends (run (initWS cfg)
        ((vs0.map Ev.next ++ Ev.attach c :: vs1.map Ev.next) ++ [Ev.opened 0, Ev.next w])).2 =
      (vs0 ++ vs1).map (fun v => ((0 : Nat), f v)) ++ [(0, f w)] := by
  have hser1 : ∀ v ∈ vs0 ++ vs1, cfg.serializer v = Except.ok (f v) := by
    intro v hv
    apply hser
    simp only [List.mem_append] at hv ⊢
    exact Or.inl hv
  have hw : cfg.serializer w = Except.ok (f w) := hser w (by simp)
  have hpre := run_prefix cfg c vs0 vs1
  have hop := step_opened cfg c (vs0 ++ vs1) f hser1
  have hnw : step (stOpened cfg c) (Ev.next w) = (stOpened cfg c, [Eff.send 0 (f w)]) := by
    simp [step, wsNext, stOpened, destNextPost, sockGet, hw]
  have hfull : run (initWS cfg)
      ((vs0.map Ev.next ++ Ev.attach c :: vs1.map Ev.next) ++ [Ev.opened 0, Ev.next w]) =
      (stOpened cfg c,
        [] ++ (((if cfg.hasOpenObserver then [Eff.hookOpen] else []) ++
          (vs0 ++ vs1).map (fun v => Eff.send 0 (f v))) ++ ([Eff.send 0 (f w)] ++ []))) := by
    rw [run_append, hpre]
    simp only [run, hop, hnw]
  refine ⟨?_, ?_, ?_⟩
  · rw [hpre]
    rfl
  · rw [hpre]
    rfl
  · rw [hfull]
    cases ho : cfg.hasOpenObserver <;>
      simp [ho, sends_append, sends_sendMap, sends_nil, sends_hookOpen, sends_single,
        sends_cons_hookOpen]

/-- C1 witness: two values buffered while Idle and Connecting, flushed
serialized in order at open, followed by an immediate post-open send. -/
theorem c1_buffering_witness :
    (∀ v ∈ [5] ++ [6] ++ [7], cfg0.serializer v = Except.ok (v + 1)) ∧
    (run (initWS cfg0) (([5] : List Nat).map Ev.next ++
        Ev.attach 1 :: ([6] : List Nat).map Ev.next)).1.destination =
      Dst.replay [5, 6] none false ∧
    sends (run (initWS cfg0)
        ((([5] : List Nat).map Ev.next ++ Ev.attach 1 :: ([6] : List Nat).map Ev.next) ++
          [Ev.opened 0, Ev.next 7])).2 =
      ([5, 6] : List Nat).map (fun v => ((0 : Nat), v + 1)) ++ [(0, 8)] := by
  have h := c1_buffering cfg0 (fun v => v + 1) 1 [5] [6] 7 (fun v _ => rfl)
  exact ⟨fun v _ => rfl, h.1, h.2.2⟩

/-- C4: over a full channel lifecycle — subscribe-message sent on first
attach (buffered, then flushed once at open), then detach by any of the
three causes — the socket send trace is exactly one serialized
subscribe message followed by exactly one serialized unsubscribe
message, whatever the detach cause. -/
theorem c4_multiplex_symmetry (cfg : Config) (c sMsg uMsg mS mU : Nat) (cause : DetachCause)
    (hs : cfg.serializer sMsg = Except.ok mS)
    (hu : cfg.serializer uMsg = Except.ok mU)
    (hne : mS ≠ mU) :
    sends ((mpAttach (initWS cfg) (Except.ok sMsg) c).2.1 ++
        (step (mpAttach (initWS cfg) (Except.ok sMsg) c).1 (Ev.opened 0)).2 ++
        (mpDetachBy cause (step (mpAttach (initWS cfg) (Except.ok sMsg) c).1 (Ev.opened 0)).1
          (Except.ok uMsg) c false).2.1) = [(0, mS), (0, mU)]
    ∧ (sends ((mpAttach (initWS cfg) (Except.ok sMsg) c).2.1 ++
        (step (mpAttach (initWS cfg) (Except.ok sMsg) c).1 (Ev.opened 0)).2 ++
        (mpDetachBy cause (step (mpAttach (initWS cfg) (Except.ok sMsg) c).1 (Ev.opened 0)).1
          (Except.ok uMsg) c false).2.1)).count (0, mS) = 1
    ∧ (sends ((mpAttach (initWS cfg) (Except.ok sMsg) c).2.1 ++
        (step (mpAttach (initWS cfg) (Except.ok sMsg) c).1 (Ev.opened 0)).2 ++
        (mpDetachBy cause (step (mpAttach (initWS cfg) (Except.ok sMsg) c).1 (Ev.opened 0)).1
          (Except.ok uMsg) c false).2.1)).count (0, mU) = 1 := by
  have hmp : mpAttach (initWS cfg) (Except.ok sMsg) c =
      (stConnecting cfg c [sMsg], [], ([], false)) := by
    simp [mpAttach, wsNext, initWS, wsAttach, connectSocket, subjSubscribe, subjGet,
      stConnecting]
  have hop : step (stConnecting cfg c [sMsg]) (Ev.opened 0) =
      (stOpened cfg c,
        (if cfg.hasOpenObserver then [Eff.hookOpen] else []) ++ [Eff.send 0 mS]) := by
    have h1 := step_opened cfg c [sMsg] (fun _ => mS)
      (fun v hv => by rw [List.mem_singleton.mp hv]; exact hs)
    simpa using h1
  have hdet : (mpDetachBy cause (stOpened cfg c) (Except.ok uMsg) c false).2.1 =
      [Eff.send 0 mU, Eff.close 0 none] := by
    simp [mpDetachBy, mpDetach, wsNext, stOpened, destNextPost, sockGet, hu, wsDetach,
      removeConsumer, subjGet, closeSock, resetState]
  have htr : sends ((mpAttach (initWS cfg) (Except.ok sMsg) c).2.1 ++
      (step (mpAttach (initWS cfg) (Except.ok sMsg) c).1 (Ev.opened 0)).2 ++
      (mpDetachBy cause (step (mpAttach (initWS cfg) (Except.ok sMsg) c).1 (Ev.opened 0)).1
        (Except.ok uMsg) c false).2.1) = [(0, mS), (0, mU)] := by
    rw [hmp]
    simp only [hop, hdet]
    cases ho : cfg.hasOpenObserver <;>
      simp [ho, sends_append, sends, sends_nil, sends_cons_hookOpen]
  have hcne : ((0 : Nat), mU) ≠ ((0 : Nat), mS) := by
    intro hq
    injection hq with h1 h2
    exact hne h2.symm
  have hcne2 : ((0 : Nat), mS) ≠ ((0 : Nat), mU) := by
    intro hq
    injection hq with h1 h2
    exact hne h2
  refine ⟨htr, ?_, ?_⟩
  · rw [htr]
    simp [List.count_cons, hcne.symm, hcne2.symm]
  · rw [htr]
    simp [List.count_cons, hcne.symm, hcne2.symm]

/-- C4 witness: concrete lifecycle with subscribe message 1 and
unsubscribe message 2 under the successor serializer, detach caused by
an upstream error. -/
theorem c4_multiplex_symmetry_witness :
    cfg0.serializer 1 = Except.ok 2 ∧ cfg0.serializer 2 = Except.ok 3 ∧
    sends ((mpAttach (initWS cfg0) (Except.ok 1) 7).2.1 ++
        (step (mpAttach (initWS cfg0) (Except.ok 1) 7).1 (Ev.opened 0)).2 ++
        (mpDetachBy DetachCause.upstreamError
          (step (mpAttach (initWS cfg0) (Except.ok 1) 7).1 (Ev.opened 0)).1
          (Except.ok 2) 7 false).2.1) = [(0, 2), (0, 3)] := by
  have h := c4_multiplex_symmetry cfg0 7 1 2 2 3 DetachCause.upstreamError rfl rfl
    (by decide)
  exact ⟨rfl, rfl, h.1⟩

/-- C5 counterexample: with a throwing subscribe-message producer the
channel does deliver the error to its consumer, but it nevertheless
still attaches its inner consumer to the broadcast hub (the hub's
observer list contains the inner consumer 7 afterwards), contradicting
the claim that no attach occurs. -/
theorem c5_counterexample :
    (mpAttach (initWS cfg0) (Except.error 3) 7).2.2 = ([ChEv.er (EV.thrown 3)], true) ∧
    (subjGet (mpAttach (initWS cfg0) (Except.error 3) 7).1
        (mpAttach (initWS cfg0) (Except.error 3) 7).1.outputId).observers = [7] := by
  exact ⟨rfl, rfl⟩

/-- C5 amended: when the subscribe-message producer throws on first
attach, the channel delivers exactly that error to its own consumer and
the consumer is stopped; the filtered view is nevertheless still
attached to the broadcast hub (and the connection attempt is started),
but the stopped consumer receives no subsequent broadcast-derived
events. -/
theorem c5_submsg_throw (cfg : Config) (n c : Nat) :
    (mpAttach (initWS cfg) (Except.error n) c).2.2.1 = [ChEv.er (EV.thrown n)]
    ∧ (mpAttach (initWS cfg) (Except.error n) c).2.2.2 = true
    ∧ (subjGet (mpAttach (initWS cfg) (Except.error n) c).1
        (mpAttach (initWS cfg) (Except.error n) c).1.outputId).observers = [c]
    ∧ (mpAttach (initWS cfg) (Except.error n) c).1.socketRef = some 0
    ∧ (∀ (flt : Nat → Except Nat Bool) (l : List CEv), chanRun flt true l = []) := by
  have hA : mpAttach (initWS cfg) (Except.error n) c =
      (stConnecting cfg c [], [], ([ChEv.er (EV.thrown n)], true)) := by
    simp [mpAttach, wsAttach, connectSocket, subjSubscribe, subjGet, initWS, stConnecting]
  rw [hA]
  exact ⟨rfl, rfl, rfl, rfl, fun flt l => chanRun_stopped flt l⟩

/-- C8 counterexample: with two consumers attached and open, inbound
values 10 and 11 both make channel X's filter throw, yet X's channel
trace contains only the single error produced by the first throwing
value — no error is delivered for value 11, contradicting the claim
that every throwing inbound value has its error delivered to X's
consumer. -/
theorem c8_counterexample :
    fltX0 10 = Except.error 5 ∧ fltX0 11 = Except.error 5 ∧
    chanRun fltX0 false (consumerEvs 1
        ((run (run (initWS cfg0) [Ev.attach 1, Ev.attach 2, Ev.opened 0]).1
          [Ev.message 0 10, Ev.message 0 11]).2)) = [ChEv.er (EV.thrown 5)] := by
  exact ⟨rfl, rfl, rfl⟩

/-- C8 amended: each channel's trace is a function of its own filter
only (so channel Y's delivery is unaffected by anything channel X's
filter does); a value is forwarded on a channel only if that channel's
predicate returns true for it, hence disjoint predicates never share a
forwarded message; and the first inbound value on which X's predicate
throws delivers that error to X's consumer — after which X's channel is
stopped, so later throwing values deliver nothing further. -/
theorem c8_filter_isolation (cfg : Config) (cX cY : Nat) (g : Nat → Nat)
    (fltX fltY : Nat → Except Nat Bool) (ds : List Nat)
    (hne : cX ≠ cY)
    (hde : ∀ d ∈ ds, cfg.deserializer d = Except.ok (g d))
    (hdisj : ∀ v, fltX v = Except.ok true → ¬ fltY v = Except.ok true) :
    (run (initWS cfg) [Ev.attach cX, Ev.attach cY, Ev.opened 0]).1 = stOpen2 cfg cX cY
    ∧ chanRun fltX false
        (consumerEvs cX ((run (stOpen2 cfg cX cY) (ds.map (Ev.message 0))).2)) =
      chanRun fltX false (ds.map (fun d => CEv.nx (g d)))
    ∧ chanRun fltY false
        (consumerEvs cY ((run (stOpen2 cfg cX cY) (ds.map (Ev.message 0))).2)) =
      chanRun fltY false (ds.map (fun d => CEv.nx (g d)))
    ∧ (∀ v, ChEv.nx v ∈ chanRun fltX false
          (consumerEvs cX ((run (stOpen2 cfg cX cY) (ds.map (Ev.message 0))).2)) →
        fltX v = Except.ok true)
    ∧ (∀ v, ChEv.nx v ∈ chanRun fltX false
          (consumerEvs cX ((run (stOpen2 cfg cX cY) (ds.map (Ev.message 0))).2)) →
        ChEv.nx v ∉ chanRun fltY false
          (consumerEvs cY ((run (stOpen2 cfg cX cY) (ds.map (Ev.message 0))).2)))
    ∧ (∀ (ds1 : List Nat) (d2 : Nat) (ds2 : List Nat) (n : Nat),
        ds = ds1 ++ d2 :: ds2 →
        fltX (g d2) = Except.error n →
        (∀ d ∈ ds1, ∃ bb, fltX (g d) = Except.ok bb) →
        ChEv.er (EV.thrown n) ∈ chanRun fltX false
          (consumerEvs cX ((run (stOpen2 cfg cX cY) (ds.map (Ev.message 0))).2))) := by
  have hrm := run_messages g [cX, cY] ds (stOpen2 cfg cX cY) 0 hde rfl
  have heffs : (run (stOpen2 cfg cX cY) (ds.map (Ev.message 0))).2 =
      (ds.map (fun d => [Eff.cNext cX (g d), Eff.cNext cY (g d)])).flatten := by
    rw [hrm]
    rfl
  have hcx : consumerEvs cX ((run (stOpen2 cfg cX cY) (ds.map (Ev.message 0))).2) =
      ds.map (fun d => CEv.nx (g d)) := by
    rw [heffs]
    exact consumerEvs_pair_left cX cY g (Ne.symm hne) ds
  have hcy : consumerEvs cY ((run (stOpen2 cfg cX cY) (ds.map (Ev.message 0))).2) =
      ds.map (fun d => CEv.nx (g d)) := by
    rw [heffs]
    exact consumerEvs_pair_right cX cY g hne ds
  refine ⟨run_attach2_open cfg cX cY ▸ rfl, by rw [hcx], by rw [hcy], ?_, ?_, ?_⟩
  · intro v h
    exact chanRun_nx_mem fltX _ false v h
  · intro v h hy
    exact hdisj v (chanRun_nx_mem fltX _ false v h) (chanRun_nx_mem fltY _ false v hy)
  · intro ds1 d2 ds2 n hds hthrow hok
    rw [hcx, hds]
    have hmaps : (ds1 ++ d2 :: ds2).map (fun d => CEv.nx (g d)) =
        (ds1.map g).map CEv.nx ++ CEv.nx (g d2) :: ds2.map (fun d => CEv.nx (g d)) := by
      simp [List.map_append, List.map_map, Function.comp]
    rw [hmaps]
    refine chanRun_first_throw fltX n (g d2) _ (ds1.map g) ?_ hthrow
    intro u hu
    rcases List.mem_map.mp hu with ⟨d, hd, hgd⟩
    rcases hok d hd with ⟨bb, hbb⟩
    exact ⟨bb, hgd ▸ hbb⟩

/-- C8 witness: the disjoint concrete filters accepting 30 and 20 over
inbound values 30 then 20 — each channel receives only its own match. -/
theorem c8_filter_isolation_witness :
    (1 : Nat) ≠ 2 ∧
    (run (initWS cfg0) [Ev.attach 1, Ev.attach 2, Ev.opened 0]).1 = stOpen2 cfg0 1 2 ∧
    chanRun fltX1 false
        (consumerEvs 1 ((run (stOpen2 cfg0 1 2) (([30, 20] : List Nat).map (Ev.message 0))).2)) =
      chanRun fltX1 false (([30, 20] : List Nat).map (fun d => CEv.nx d)) ∧
    (∀ v, ChEv.nx v ∈ chanRun fltX1 false
          (consumerEvs 1 ((run (stOpen2 cfg0 1 2) (([30, 20] : List Nat).map (Ev.message 0))).2)) →
        ChEv.nx v ∉ chanRun fltY0 false
          (consumerEvs 2 ((run (stOpen2 cfg0 1 2) (([30, 20] : List Nat).map (Ev.message 0))).2))) := by
  have hdisj : ∀ v, fltX1 v = Except.ok true → ¬ fltY0 v = Except.ok true := by
    intro v hx hy
    simp [fltX1] at hx
    subst hx
    simp [fltY0] at hy
  have h := c8_filter_isolation cfg0 1 2 (fun d => d) fltX1 fltY0 [30, 20]
    (by decide) (fun d _ => rfl) hdisj
  exact ⟨by decide, h.1, h.2.1, h.2.2.2.2.1⟩

end WS
